import Mathlib

/-!
Shallow embedding of `src/debt_calculator.py` and
`src/debt_app_streamlit.py` (repository Debt_Payoff_Planner).

Python floats are modelled as exact rationals (`ℚ`); Python lists as
`List`; in-place mutation of the caller's card list as explicit store
passing: each top-level API function returns, besides its Python return
value (a raised exception becoming `Except.error`), the card list the
caller sees after the call.  `copy.deepcopy` of a list of value-like
dataclasses is the identity on values, so the simulation entry points
thread the caller's list through unchanged and simulate on the copy.

Python's stable `list.sort(key=...)` is modelled by a stable insertion
sort driven by the boolean comparator of the lexicographic key order;
any two stable sorts agree elementwise for a total preorder, so this is
observation-equivalent to CPython's sort.

The `while` loops of the simulators increment a month counter and bail
out as soon as `months + 1 > max_months`; the embedding replaces the
unbounded loop by structural recursion on `fuel = max_months - months`,
so the cap branch is exactly the `fuel = 0` case and the `months`
argument still tracks the Python counter.
-/

section DebtPayoff

attribute [local semireducible] Rat.add Rat.mul Rat.sub Rat.inv Rat.ofScientific

structure Card where
  name : String
  balance : ℚ
  apr : ℚ
deriving DecidableEq, Repr

inductive PyError where
  | valueError (msg : String)
  | keyError (msg : String)
deriving DecidableEq, Repr

def PyError.isValueError : PyError → Bool
  | .valueError _ => true
  | .keyError _ => false

/-- monthly_rate (debt_calculator.py lines 30-31). -/
def monthly_rate (apr_percent : ℚ) : ℚ :=
  apr_percent / 100 / 12

/-- total_balance (lines 49-50). -/
def total_balance (cards : List Card) : ℚ :=
  (cards.map Card.balance).sum

/-- value-semantics model of `copy.deepcopy(cards)` (line 71 / line 50 of
the streamlit file): a deep copy of a list of value-like records is the
same value. -/
def pyDeepcopy (cards : List Card) : List Card := cards

/-- pairs each list element with its position, starting at `n`; models
iteration over a Python list while remembering which slot each shared
object occupies. -/
def withIdx : Nat → List α → List (Nat × α)
  | _, [] => []
  | n, a :: as => (n, a) :: withIdx (n + 1) as

/-- writes updated cards back into the base list at their indices; this
models the fact that the sorted `active` list in Python aliases the very
objects stored in `cards`. -/
def writeBack (cards : List Card) (pairs : List (Nat × Card)) : List Card :=
  pairs.foldl (fun cs p => cs.set p.1 p.2) cards

/-- stable insertion of an element into a sorted list. -/
def orderedInsertB (le : α → α → Bool) (a : α) : List α → List α
  | [] => [a]
  | b :: bs => if le a b then a :: b :: bs else b :: orderedInsertB le a bs

/-- stable insertion sort; for a total preorder comparator this computes
the same list as Python's stable `list.sort`. -/
def stableSort (le : α → α → Bool) : List α → List α
  | [] => []
  | a :: as => orderedInsertB le a (stableSort le as)

/-- comparator of `active.sort(key=lambda x: (-x.apr, x.balance))`
(line 103). -/
def avalancheLE (a b : Card) : Bool :=
  decide (b.apr < a.apr ∨ (a.apr = b.apr ∧ a.balance ≤ b.balance))

/-- comparator of `active.sort(key=lambda x: (x.balance, -x.apr))`
(line 105). -/
def snowballLE (a b : Card) : Bool :=
  decide (a.balance < b.balance ∨ (a.balance = b.balance ∧ b.apr ≤ a.apr))

/-- one card's interest accrual (lines 91-94): a balance above epsilon
accrues `balance * monthly_rate apr`, anything else accrues nothing. -/
def accrueCard (epsilon : ℚ) (c : Card) : Card × ℚ :=
  if epsilon < c.balance then
    ({ c with balance := c.balance + c.balance * monthly_rate c.apr },
     c.balance * monthly_rate c.apr)
  else (c, 0)

/-- accrues every card (lines 89-95), returning the updated cards and
the month's total interest. -/
def accrueAll (epsilon : ℚ) (cards : List Card) : List Card × ℚ :=
  (cards.map fun c => (accrueCard epsilon c).1,
   (cards.map fun c => (accrueCard epsilon c).2).sum)

/-- the avalanche/snowball payment walk (lines 122-127): pays each card
`min(balance, remaining)` in order, stopping once remaining ≤ epsilon. -/
def greedyPass (epsilon : ℚ) : ℚ → List (Nat × Card) → ℚ × List (Nat × Card)
  | rem, [] => (rem, [])
  | rem, (i, c) :: rest =>
    if rem ≤ epsilon then (rem, (i, c) :: rest)
    else
      let pay := min c.balance rem
      let out := greedyPass epsilon (rem - pay) rest
      (out.1, (i, { c with balance := c.balance - pay }) :: out.2)

/-- the index-tagged active cards, balance above epsilon (line 101). -/
def activePairs (epsilon : ℚ) (cards : List Card) : List (Nat × Card) :=
  (withIdx 0 cards).filter fun p => epsilon < p.2.balance

/-- one sorted greedy allocation pass over the active cards, written
back into the full card list. -/
def greedyAlloc (epsilon budget : ℚ) (le : Card → Card → Bool)
    (cards : List Card) : ℚ × List Card :=
  let out := greedyPass epsilon budget
    (stableSort (fun p q => le p.2 q.2) (activePairs epsilon cards))
  (out.1, writeBack cards out.2)

/-- proportional share payment for one card (lines 117-118). -/
def propPay (budget total_bal : ℚ) (c : Card) : ℚ :=
  min c.balance (budget * (c.balance / total_bal))

/-- the proportional allocation pass (lines 116-119). -/
def proportionalPass (budget total_bal : ℚ) (pairs : List (Nat × Card)) :
    List (Nat × Card) :=
  pairs.map fun p =>
    (p.1, { p.2 with balance := p.2.balance - propPay budget total_bal p.2 })

/-- one month's payment allocation in debt_calculator.py
(lines 97-139); `Option.none` encodes the proportional branch's
`break`, and the avalanche/snowball branches run the overflow-handling
second pass of lines 129-139 when budget remains. -/
def monthAllocDC (epsilon budget : ℚ) (strategy : String)
    (cards : List Card) : Except PyError (Option (List Card)) :=
  if strategy = "avalanche" then
    let out := greedyAlloc epsilon budget avalancheLE cards
    .ok (some (if epsilon < out.1 then
      (greedyAlloc epsilon out.1 avalancheLE out.2).2 else out.2))
  else if strategy = "snowball" then
    let out := greedyAlloc epsilon budget snowballLE cards
    .ok (some (if epsilon < out.1 then
      (greedyAlloc epsilon out.1 snowballLE out.2).2 else out.2))
  else if strategy = "proportional" then
    let act := activePairs epsilon cards
    let total_bal := (act.map fun p => p.2.balance).sum
    if total_bal ≤ epsilon then .ok none
    else .ok (some (writeBack cards (proportionalPass budget total_bal act)))
  else .error (.valueError "strategy must be one of: avalanche, snowball, proportional")

structure Snapshot where
  month : Nat
  interest : ℚ
  total_interest_to_date : ℚ
  balances : List (String × ℚ)
  total_bal : ℚ
deriving DecidableEq, Repr

structure SimResult where
  paid_off : Bool
  months : Nat
  total_interest : ℚ
  reason : Option String
  history : List Snapshot
deriving DecidableEq, Repr

/-- the per-month history record (lines 142-148); displayed balances
are clamped at zero. -/
def mkSnapshot (month : Nat) (m_int ti : ℚ) (cards : List Card) : Snapshot :=
  ⟨month, m_int, ti, cards.map (fun c => (c.name, max 0 c.balance)),
   total_balance cards⟩

/-- the while loop of simulate_payoff_total_budget (lines 77-157);
`fuel = max_months - months`, so `fuel = 0` is exactly the
`months > max_months` cap branch of lines 79-86. -/
def simLoopDC (budget : ℚ) (strategy : String) (epsilon : ℚ) :
    Nat → List Card → Nat → ℚ → List Snapshot → Except PyError SimResult
  | fuel, cards, months, ti, hist =>
    if epsilon < total_balance cards then
      match fuel with
      | 0 => .ok ⟨false, months + 1, ti,
          some "Hit max_months (budget may be too low).", hist⟩
      | fuel' + 1 =>
        let acc := accrueAll epsilon cards
        match monthAllocDC epsilon budget strategy acc.1 with
        | .error e => .error e
        | .ok none => .ok ⟨true, months + 1, ti + acc.2, none, hist⟩
        | .ok (some cards2) =>
          simLoopDC budget strategy epsilon fuel' cards2 (months + 1)
            (ti + acc.2)
            (hist ++ [mkSnapshot (months + 1) acc.2 (ti + acc.2) cards2])
    else .ok ⟨true, months, ti, none, hist⟩

/-- simulate_payoff_total_budget of debt_calculator.py (lines 53-157);
the second component is the caller-visible card list after the call. -/
def simulate_payoff_total_budget (cards : List Card) (monthly_budget : ℚ)
    (strategy : String) (max_months : Nat) (epsilon : ℚ) :
    Except PyError SimResult × List Card :=
  if monthly_budget ≤ 0 then
    (.error (.valueError "monthly_budget must be > 0"), cards)
  else
    (simLoopDC monthly_budget strategy epsilon max_months
      (pyDeepcopy cards) 0 0 [], cards)

/-- clamped one-card payment (line 43). -/
def payCard (c : Card) (amount : ℚ) : Card :=
  { c with balance := max 0 (c.balance - amount) }

/-- the for-loop of apply_one_time_payment (lines 39-44): pays the first
card whose name matches; `none` when no card matches. -/
def payFirstMatch (card_name : String) (amount : ℚ) :
    List Card → Option (List Card)
  | [] => none
  | c :: cs =>
    if c.name = card_name then some (payCard c amount :: cs)
    else (payFirstMatch card_name amount cs).map (c :: ·)

/-- apply_one_time_payment (lines 34-46); this one mutates the caller's
list (second component). -/
def apply_one_time_payment (cards : List Card) (card_name : String)
    (amount : ℚ) : Except PyError Unit × List Card :=
  if amount < 0 then
    (.error (.valueError "Payment amount must be >= 0"), cards)
  else
    match payFirstMatch card_name amount cards with
    | some cards2 => (.ok (), cards2)
    | none => (.error (.keyError "Card not found."), cards)

/-- index of the card a name resolves to through the `name_to_card`
dict of line 178: a dict comprehension keeps the last card with a
duplicated name. -/
def lastMatchIdx (cards : List Card) (name : String) : Option Nat :=
  match cards.reverse.findIdx? (fun c => c.name = name) with
  | none => none
  | some k => some (cards.length - 1 - k)

/-- in-place update of the element at one index. -/
def modifyIdx (f : α → α) : Nat → List α → List α
  | _, [] => []
  | 0, a :: as => f a :: as
  | n + 1, a :: as => a :: modifyIdx f n as

/-- one month's manual payment application (lines 204-211): each entry
of the payment map pays its card `min(balance, amount)` when the card
is active and the amount positive; an unknown name raises KeyError. -/
def applyManualPays (epsilon : ℚ) :
    List (String × ℚ) → List Card → Except PyError (List Card)
  | [], cards => .ok cards
  | (name, amt) :: rest, cards =>
    match lastMatchIdx cards name with
    | none => .error (.keyError "Card not found.")
    | some i =>
      applyManualPays epsilon rest
        (modifyIdx (fun c =>
          if epsilon < c.balance ∧ 0 < amt then
            { c with balance := c.balance - min c.balance amt }
          else c) i cards)

/-- the while loop of simulate_payoff_manual_payments (lines 184-227),
with the same fuel discipline as `simLoopDC`. -/
def simLoopMP (pays : List (String × ℚ)) (epsilon : ℚ) :
    Nat → List Card → Nat → ℚ → List Snapshot → Except PyError SimResult
  | fuel, cards, months, ti, hist =>
    if epsilon < total_balance cards then
      match fuel with
      | 0 => .ok ⟨false, months + 1, ti,
          some "Hit max_months (payments may be too low).", hist⟩
      | fuel' + 1 =>
        let acc := accrueAll epsilon cards
        match applyManualPays epsilon pays acc.1 with
        | .error e => .error e
        | .ok cards2 =>
          simLoopMP pays epsilon fuel' cards2 (months + 1) (ti + acc.2)
            (hist ++ [mkSnapshot (months + 1) acc.2 (ti + acc.2) cards2])
    else .ok ⟨true, months, ti, none, hist⟩

/-- simulate_payoff_manual_payments (lines 160-227); the second
component is the caller-visible card list after the call. -/
def simulate_payoff_manual_payments (cards : List Card)
    (monthly_payments : List (String × ℚ)) (max_months : Nat)
    (epsilon : ℚ) : Except PyError SimResult × List Card :=
  if monthly_payments.any (fun p => p.2 < 0) then
    (.error (.valueError "Payment must be >= 0"), cards)
  else
    (simLoopMP monthly_payments epsilon max_months (pyDeepcopy cards) 0 0 [],
     cards)

namespace ST

structure SimResultST where
  paid_off : Bool
  months : Nat
  total_interest : ℚ
  reason : Option String
deriving DecidableEq, Repr

/-- one month's payment allocation in debt_app_streamlit.py
(lines 71-103): identical to `monthAllocDC` except that there is no
overflow-handling second pass and the unknown-strategy message
differs. -/
def monthAllocST (epsilon budget : ℚ) (strategy : String)
    (cards : List Card) : Except PyError (Option (List Card)) :=
  if strategy = "avalanche" then
    .ok (some (greedyAlloc epsilon budget avalancheLE cards).2)
  else if strategy = "snowball" then
    .ok (some (greedyAlloc epsilon budget snowballLE cards).2)
  else if strategy = "proportional" then
    let act := activePairs epsilon cards
    let total_bal := (act.map fun p => p.2.balance).sum
    if total_bal ≤ epsilon then .ok none
    else .ok (some (writeBack cards (proportionalPass budget total_bal act)))
  else .error (.valueError "Unknown strategy")

/-- the while loop of the streamlit simulate_payoff_total_budget
(lines 54-104), same fuel discipline as `simLoopDC`; no history is
recorded. -/
def simLoopST (budget : ℚ) (strategy : String) (epsilon : ℚ) :
    Nat → List Card → Nat → ℚ → Except PyError SimResultST
  | fuel, cards, months, ti =>
    if epsilon < total_balance cards then
      match fuel with
      | 0 => .ok ⟨false, months + 1, ti,
          some "Hit max_months (budget may be too low)."⟩
      | fuel' + 1 =>
        let acc := accrueAll epsilon cards
        match monthAllocST epsilon budget strategy acc.1 with
        | .error e => .error e
        | .ok none => .ok ⟨true, months + 1, ti + acc.2, none⟩
        | .ok (some cards2) =>
          simLoopST budget strategy epsilon fuel' cards2 (months + 1)
            (ti + acc.2)
    else .ok ⟨true, months, ti, none⟩

/-- simulate_payoff_total_budget of debt_app_streamlit.py
(lines 40-109). -/
def simulate_payoff_total_budget (cards : List Card) (monthly_budget : ℚ)
    (strategy : String) (max_months : Nat) (epsilon : ℚ) :
    Except PyError SimResultST × List Card :=
  if monthly_budget ≤ 0 then
    (.error (.valueError "monthly_budget must be > 0"), cards)
  else
    (simLoopST monthly_budget strategy epsilon max_months
      (pyDeepcopy cards) 0 0, cards)

end ST

/-- the outputs the two implementations share: paid_off, months and
total_interest on success, the error kind on a raise. -/
def outcomeDC (x : Except PyError SimResult) : Except Bool (Bool × Nat × ℚ) :=
  match x with
  | .ok r => .ok (r.paid_off, r.months, r.total_interest)
  | .error e => .error e.isValueError

/-- shared-output projection for the streamlit implementation. -/
def outcomeST (x : Except PyError ST.SimResultST) :
    Except Bool (Bool × Nat × ℚ) :=
  match x with
  | .ok r => .ok (r.paid_off, r.months, r.total_interest)
  | .error e => .error e.isValueError

instance [DecidableEq ε] [DecidableEq α] : DecidableEq (Except ε α) := fun x y =>
  match x, y with
  | .ok a, .ok b =>
    if h : a = b then isTrue (congrArg Except.ok h)
    else isFalse (fun hh => h (Except.ok.inj hh))
  | .error a, .error b =>
    if h : a = b then isTrue (congrArg Except.error h)
    else isFalse (fun hh => h (Except.error.inj hh))
  | .ok _, .error _ => isFalse (fun hh => Except.noConfusion hh)
  | .error _, .ok _ => isFalse (fun hh => Except.noConfusion hh)

/-- C1: for a single account with balance 1200.00 and APR 24%,
`simulate_payoff_total_budget` with monthly budget 200 produces exactly
the spec's first-month trace: monthly rate 0.02, interest 24.00,
post-accrual balance 1224.00, payment 200, post-payment balance
1024.00; the simulation repeats the accrue-then-allocate cycle until
the total balance is at or below 1e-6 and returns paid_off = true with
the final month count (7) and the cumulative interest. -/
theorem C1_single_account_first_month_trace :
    monthly_rate 24 = 1 / 50 ∧
    ((simulate_payoff_total_budget [⟨"A", 1200, 24⟩] 200 "avalanche" 2000
        (1 / 1000000)).1.toOption.map fun r =>
      (r.paid_off, r.months, r.total_interest, r.history.head?)) =
    some (true, 7, 89420043639 / 976562500,
      some ⟨1, 24, 24, [("A", 1024)], 1024⟩) := by
  decide

/-- C10: with two cards whose balances are each exactly epsilon
(1e-6) but sum to 2e-6 > epsilon, the proportional strategy's
`total_bal <= epsilon` break (no card is active, so the active total is
0) falls through to the success return: paid_off = true in month 1
although the total balance still exceeds epsilon. -/
theorem C10_proportional_break_false_paidoff :
    (simulate_payoff_total_budget
        [⟨"A", 1 / 1000000, 0⟩, ⟨"B", 1 / 1000000, 0⟩] 100 "proportional"
        2000 (1 / 1000000)).1 = .ok ⟨true, 1, 0, none, []⟩ ∧
    (1 / 1000000 : ℚ) <
      total_balance [⟨"A", 1 / 1000000, 0⟩, ⟨"B", 1 / 1000000, 0⟩] ∧
    (1 / 1000000 : ℚ) ≤ 1 / 1000000 := by
  decide

/-- C4 counterexample: the unknown-strategy check sits inside the
monthly loop (line 109-110), after the `while total_balance > epsilon`
test, so with an empty card list (total balance 0 ≤ epsilon) and the
unrecognized strategy "bogus" the function returns a success result and
never raises, contradicting the claim that an invalid strategy always
raises immediately. -/
theorem C4_bogus_strategy_no_raise_counterexample :
    (simulate_payoff_total_budget [] 100 "bogus" 2000 (1 / 1000000)).1 =
      .ok ⟨true, 0, 0, none, []⟩ := by
  decide

/-- C9 counterexample: the claim quantifies over every epsilon; with a
negative epsilon (-10) and a card list containing a negative balance,
the overflow-handling second allocation pass of debt_calculator.py
re-zeroes balances that the streamlit version leaves alone, and the two
implementations return different total_interest (101/2000 versus
18261/200000) on the same inputs. -/
theorem C9_negative_epsilon_counterexample :
    outcomeDC (simulate_payoff_total_budget [⟨"A", 5, 12⟩, ⟨"B", -3, 0⟩]
        2 "avalanche" 3 (-10)).1 = .ok (false, 4, 101 / 2000) ∧
    outcomeST (ST.simulate_payoff_total_budget [⟨"A", 5, 12⟩, ⟨"B", -3, 0⟩]
        2 "avalanche" 3 (-10)).1 = .ok (false, 4, 18261 / 200000) ∧
    decide ((101 / 2000 : ℚ) = 18261 / 200000) = false := by
  decide

/-- C2: both simulation entry points work on a private copy of the
input cards and hand the caller's list back untouched, whatever the
other arguments are and whether they return a result or an error, while
`apply_one_time_payment` does mutate the caller-visible list: paying 5
toward a card with balance 5 hands back a list whose card balance is 0,
not the input list. -/
theorem C2_simulations_preserve_caller_cards :
    (∀ (cards : List Card) (b : ℚ) (s : String) (mm : Nat) (ε : ℚ),
      (simulate_payoff_total_budget cards b s mm ε).2 = cards) ∧
    (∀ (cards : List Card) (mp : List (String × ℚ)) (mm : Nat) (ε : ℚ),
      (simulate_payoff_manual_payments cards mp mm ε).2 = cards) ∧
    (apply_one_time_payment [⟨"A", 5, 0⟩] "A" 5).2 = [⟨"A", 0, 0⟩] := by
  refine ⟨fun cards b s mm ε => ?_, fun cards mp mm ε => ?_, by decide⟩
  · unfold simulate_payoff_total_budget
    split <;> rfl
  · unfold simulate_payoff_manual_payments
    split <;> rfl

lemma payFirstMatch_eq_none (name : String) (a : ℚ) :
    ∀ cards : List Card, (∀ c ∈ cards, c.name ≠ name) →
      payFirstMatch name a cards = none := by
  intro cards h
  induction cards with
  | nil => rfl
  | cons c cs ih =>
    simp only [payFirstMatch]
    rw [if_neg (h c (List.mem_cons_self c cs)),
      ih fun c' hc' => h c' (List.mem_cons_of_mem _ hc')]
    rfl

lemma payFirstMatch_append (name : String) (a : ℚ) (c : Card)
    (hc : c.name = name) :
    ∀ (pre : List Card), (∀ c' ∈ pre, c'.name ≠ name) →
      ∀ post : List Card,
        payFirstMatch name a (pre ++ c :: post) =
          some (pre ++ payCard c a :: post) := by
  intro pre
  induction pre with
  | nil => intro _ post; simp [payFirstMatch, hc]
  | cons p ps ih =>
    intro h post
    simp only [List.cons_append, payFirstMatch]
    rw [if_neg (h p (List.mem_cons_self p ps)), List.append_eq,
      ih (fun c' hc' => h c' (List.mem_cons_of_mem _ hc')) post]
    rfl

/-- C7: `apply_one_time_payment` raises ValueError on a negative amount
and KeyError when no card's name matches; in both failure cases the
caller's card list is returned unchanged (atomicity on error), and on
success only the first matching card is replaced, by the same card with
a clamped balance. -/
theorem C7_one_time_payment_errors :
    (∀ (cards : List Card) (name : String) (a : ℚ), a < 0 →
      apply_one_time_payment cards name a =
        (.error (.valueError "Payment amount must be >= 0"), cards)) ∧
    (∀ (cards : List Card) (name : String) (a : ℚ), 0 ≤ a →
      (∀ c ∈ cards, c.name ≠ name) →
      apply_one_time_payment cards name a =
        (.error (.keyError "Card not found."), cards)) ∧
    (∀ (pre post : List Card) (c : Card) (name : String) (a : ℚ), 0 ≤ a →
      (∀ c' ∈ pre, c'.name ≠ name) → c.name = name →
      apply_one_time_payment (pre ++ c :: post) name a =
        (.ok (), pre ++ payCard c a :: post)) := by
  refine ⟨fun cards name a ha => ?_, fun cards name a ha h => ?_,
    fun pre post c name a ha hpre hc => ?_⟩
  · unfold apply_one_time_payment
    rw [if_pos ha]
  · unfold apply_one_time_payment
    rw [if_neg (not_lt.mpr ha), payFirstMatch_eq_none name a cards h]
  · unfold apply_one_time_payment
    rw [if_neg (not_lt.mpr ha), payFirstMatch_append name a c hc pre hpre post]

/-- witness for C7 at concrete inputs: a negative amount, a missing
name, and a successful payment on the second card of two. -/
theorem C7_one_time_payment_errors_witness :
    apply_one_time_payment [⟨"A", 10, 0⟩] "A" (-1) =
      (.error (.valueError "Payment amount must be >= 0"), [⟨"A", 10, 0⟩]) ∧
    apply_one_time_payment [⟨"A", 10, 0⟩] "B" 5 =
      (.error (.keyError "Card not found."), [⟨"A", 10, 0⟩]) ∧
    apply_one_time_payment [⟨"B", 3, 1⟩, ⟨"A", 10, 0⟩] "A" 4 =
      (.ok (), [⟨"B", 3, 1⟩, payCard ⟨"A", 10, 0⟩ 4]) :=
  ⟨C7_one_time_payment_errors.1 _ _ _ (by norm_num),
   C7_one_time_payment_errors.2.1 _ _ _ (by norm_num) (by decide),
   C7_one_time_payment_errors.2.2 [⟨"B", 3, 1⟩] [] _ _ _ (by norm_num)
     (by decide) rfl⟩

lemma mem_modifyIdx (f : α → α) :
    ∀ (i : Nat) (l : List α) (x : α), x ∈ modifyIdx f i l →
      x ∈ l ∨ ∃ y, y ∈ l ∧ x = f y := by
  intro i l
  induction l generalizing i with
  | nil => intro x hx; cases i <;> simp [modifyIdx] at hx
  | cons a as ih =>
    intro x hx
    cases i with
    | zero =>
      rcases List.mem_cons.mp hx with h1 | h1
      · exact Or.inr ⟨a, List.mem_cons_self a as, h1⟩
      · exact Or.inl (List.mem_cons_of_mem _ h1)
    | succ n =>
      rcases List.mem_cons.mp hx with h1 | h1
      · exact Or.inl (h1 ▸ List.mem_cons_self a as)
      · rcases ih n x h1 with h2 | ⟨y, hy, hxy⟩
        · exact Or.inl (List.mem_cons_of_mem _ h2)
        · exact Or.inr ⟨y, List.mem_cons_of_mem _ hy, hxy⟩

lemma applyManualPays_nonneg (ε : ℚ) :
    ∀ (mp : List (String × ℚ)) (cards cards2 : List Card),
      (∀ c ∈ cards, 0 ≤ c.balance) →
      applyManualPays ε mp cards = .ok cards2 →
      ∀ c ∈ cards2, 0 ≤ c.balance := by
  intro mp
  induction mp with
  | nil =>
    intro cards cards2 h heq
    simp only [applyManualPays, Except.ok.injEq] at heq
    exact heq ▸ h
  | cons p ps ih =>
    obtain ⟨name, amt⟩ := p
    intro cards cards2 h heq
    simp only [applyManualPays] at heq
    rcases hidx : lastMatchIdx cards name with _ | i <;> rw [hidx] at heq
    · exact absurd heq (by simp)
    · refine ih _ cards2 ?_ heq
      intro x hx
      rcases mem_modifyIdx _ i cards x hx with h1 | ⟨y, hy, rfl⟩
      · exact h x h1
      · split
        · show 0 ≤ y.balance - min y.balance amt
          have := min_le_left y.balance amt
          linarith
        · exact h y hy

/-- C8: balances stay nonnegative at every observable point: after an
accrual step (for nonnegative APR), after every avalanche/snowball
payment, after every proportional payment, after writing paid cards
back into the full list, after a month of manual payments, and after a
one-time payment — which moreover clamps to exactly 0 whenever the
amount is at least the balance. -/
theorem C8_balance_nonneg_invariant :
    (∀ (ε : ℚ) (c : Card), 0 ≤ c.balance → 0 ≤ c.apr →
      0 ≤ (accrueCard ε c).1.balance) ∧
    (∀ (ε rem : ℚ) (pairs : List (Nat × Card)),
      (∀ p ∈ pairs, 0 ≤ p.2.balance) →
      ∀ q ∈ (greedyPass ε rem pairs).2, 0 ≤ q.2.balance) ∧
    (∀ (b T : ℚ) (pairs : List (Nat × Card)),
      (∀ p ∈ pairs, 0 ≤ p.2.balance) →
      ∀ q ∈ proportionalPass b T pairs, 0 ≤ q.2.balance) ∧
    (∀ (cards : List Card) (pairs : List (Nat × Card)),
      (∀ c ∈ cards, 0 ≤ c.balance) → (∀ p ∈ pairs, 0 ≤ p.2.balance) →
      ∀ c ∈ writeBack cards pairs, 0 ≤ c.balance) ∧
    (∀ (ε : ℚ) (mp : List (String × ℚ)) (cards cards2 : List Card),
      (∀ c ∈ cards, 0 ≤ c.balance) →
      applyManualPays ε mp cards = .ok cards2 →
      ∀ c ∈ cards2, 0 ≤ c.balance) ∧
    (∀ (c : Card) (a : ℚ),
      0 ≤ (payCard c a).balance ∧
      (c.balance ≤ a → (payCard c a).balance = 0)) := by
  refine ⟨?_, ?_, ?_, ?_, applyManualPays_nonneg, ?_⟩
  · intro ε c hb ha
    unfold accrueCard
    split
    · have h1 : 0 ≤ monthly_rate c.apr := by
        unfold monthly_rate
        positivity
      have h2 : 0 ≤ c.balance * monthly_rate c.apr := mul_nonneg hb h1
      simp only
      linarith
    · exact hb
  · intro ε rem pairs
    induction pairs generalizing rem with
    | nil => intro _ q hq; simp [greedyPass] at hq
    | cons p rest ih =>
      obtain ⟨i, c⟩ := p
      intro h q hq
      simp only [greedyPass] at hq
      split at hq
      · exact h q hq
      · rcases List.mem_cons.mp hq with h1 | h1
        · have : min c.balance rem ≤ c.balance := min_le_left _ _
          subst h1
          simp only
          linarith
        · exact ih _ (fun p' hp' => h p' (List.mem_cons_of_mem _ hp')) q h1
  · intro b T pairs h q hq
    simp only [proportionalPass, List.mem_map] at hq
    obtain ⟨p, hp, rfl⟩ := hq
    have h1 : propPay b T p.2 ≤ p.2.balance := min_le_left _ _
    have h2 := h p hp
    simp only
    linarith
  · intro cards pairs
    induction pairs generalizing cards with
    | nil => intro h _ c hc; exact h c hc
    | cons p rest ih =>
      intro h hp c hc
      refine ih (cards.set p.1 p.2) ?_
        (fun q hq => hp q (List.mem_cons_of_mem _ hq)) c hc
      intro x hx
      rcases List.mem_or_eq_of_mem_set hx with h1 | h1
      · exact h x h1
      · exact h1 ▸ hp p (List.mem_cons_self p rest)
  · intro c a
    refine ⟨le_max_left 0 _, fun h => ?_⟩
    have : c.balance - a ≤ 0 := sub_nonpos.mpr h
    exact max_eq_left this

/-- witness for C8 at concrete inputs for every conjunct. -/
theorem C8_balance_nonneg_invariant_witness :
    (0 ≤ (accrueCard (1 / 1000000) ⟨"A", 100, 24⟩).1.balance) ∧
    (∀ q ∈ (greedyPass (1 / 1000000) 50 [(0, ⟨"A", 100, 24⟩)]).2,
      0 ≤ q.2.balance) ∧
    (∀ q ∈ proportionalPass 50 100 [(0, ⟨"A", 100, 24⟩)],
      0 ≤ q.2.balance) ∧
    (∀ c ∈ writeBack [⟨"A", 100, 24⟩] [(0, ⟨"A", 40, 24⟩)],
      0 ≤ c.balance) ∧
    (∀ c ∈ [(⟨"A", 70, 0⟩ : Card)], 0 ≤ c.balance) ∧
    (0 ≤ (payCard ⟨"A", 10, 0⟩ 20).balance ∧
      (payCard ⟨"A", 10, 0⟩ 20).balance = 0) :=
  ⟨C8_balance_nonneg_invariant.1 _ _ (by norm_num) (by norm_num),
   C8_balance_nonneg_invariant.2.1 _ _ _ (by decide),
   C8_balance_nonneg_invariant.2.2.1 _ _ _ (by decide),
   C8_balance_nonneg_invariant.2.2.2.1 _ _ (by decide) (by decide),
   C8_balance_nonneg_invariant.2.2.2.2.1 (1 / 1000000) [("A", 30)]
     [⟨"A", 100, 0⟩] _ (by decide) (by decide),
   ⟨(C8_balance_nonneg_invariant.2.2.2.2.2 ⟨"A", 10, 0⟩ 20).1,
    (C8_balance_nonneg_invariant.2.2.2.2.2 ⟨"A", 10, 0⟩ 20).2
      (by norm_num)⟩⟩

/-- C5: in a proportional month where no active card's share
`budget * (balance / total)` exceeds its balance, the per-card payments
sum to exactly `min budget total` (the whole budget), and the pass pays
each card exactly its own capped share (no intra-month reallocation of
a capped card's surplus). -/
theorem C5_proportional_budget_conservation
    (budget T ε : ℚ) (pairs : List (Nat × Card))
    (hT : T = (pairs.map fun p => p.2.balance).sum)
    (hact : ∀ p ∈ pairs, ε < p.2.balance)
    (hε : 0 ≤ ε) (hTε : ε < T)
    (hshare : ∀ p ∈ pairs, budget * (p.2.balance / T) ≤ p.2.balance) :
    (pairs.map fun p => propPay budget T p.2).sum = min budget T ∧
    (proportionalPass budget T pairs).map (fun q => q.2.balance) =
      pairs.map fun p => p.2.balance - propPay budget T p.2 := by
  have hT0 : 0 < T := lt_of_le_of_lt hε hTε
  have hpays : (pairs.map fun p => propPay budget T p.2) =
      pairs.map fun p => budget / T * p.2.balance := by
    refine List.map_congr_left fun p hp => ?_
    unfold propPay
    rw [min_eq_right (hshare p hp)]
    ring
  have hsum : (pairs.map fun p => propPay budget T p.2).sum = budget := by
    rw [hpays, List.sum_map_mul_left, ← hT]
    exact div_mul_cancel₀ budget (ne_of_gt hT0)
  have hbT : budget ≤ T := by
    have h1 : (pairs.map fun p => propPay budget T p.2).sum ≤
        (pairs.map fun p => p.2.balance).sum := by
      refine List.sum_le_sum fun p hp => ?_
      exact min_le_left _ _
    rw [hsum, ← hT] at h1
    exact h1
  refine ⟨by rw [hsum, min_eq_left hbT], ?_⟩
  unfold proportionalPass
  rw [List.map_map]
  rfl

/-- witness for C5: two active cards with balances 100 and 300, budget
200, total 400; both shares (50 and 150) are below the balances and the
payments sum to the whole budget. -/
theorem C5_proportional_budget_conservation_witness :
    ([((0 : Nat), (⟨"A", 100, 0⟩ : Card)), (1, ⟨"B", 300, 0⟩)].map fun p =>
      propPay 200 400 p.2).sum = min 200 400 :=
  (C5_proportional_budget_conservation 200 400 (1 / 1000000) _
    (by decide) (by decide) (by norm_num) (by norm_num) (by decide)).1

lemma simLoopDC_months (b : ℚ) (s : String) (ε : ℚ) :
    ∀ (fuel : Nat) (cards : List Card) (months : Nat) (ti : ℚ)
      (hist : List Snapshot) (r : SimResult),
      simLoopDC b s ε fuel cards months ti hist = .ok r →
      r.months ≤ months + fuel + 1 ∧
      (r.paid_off = false → r.months = months + fuel + 1 ∧
        r.reason = some "Hit max_months (budget may be too low).") := by
  intro fuel
  induction fuel with
  | zero =>
    intro cards months ti hist r h
    simp only [simLoopDC] at h
    split at h
    · cases h
      exact ⟨by dsimp only; omega, fun _ => ⟨by dsimp only, rfl⟩⟩
    · cases h
      exact ⟨by dsimp only; omega, fun hf => Bool.noConfusion hf⟩
  | succ fuel' ih =>
    intro cards months ti hist r h
    simp only [simLoopDC] at h
    split at h
    · rcases halloc : monthAllocDC ε b s (accrueAll ε cards).1 with e | o
      · rw [halloc] at h
        exact absurd h (by simp)
      · rw [halloc] at h
        match o with
        | none =>
          cases h
          exact ⟨by dsimp only; omega, fun hf => Bool.noConfusion hf⟩
        | some cards2 =>
          obtain ⟨h1, h2⟩ := ih cards2 (months + 1) _ _ r h
          refine ⟨by omega, fun hf => ⟨?_, (h2 hf).2⟩⟩
          have := (h2 hf).1
          omega
    · cases h
      exact ⟨by dsimp only; omega, fun hf => Bool.noConfusion hf⟩

lemma simLoopMP_months (mp : List (String × ℚ)) (ε : ℚ) :
    ∀ (fuel : Nat) (cards : List Card) (months : Nat) (ti : ℚ)
      (hist : List Snapshot) (r : SimResult),
      simLoopMP mp ε fuel cards months ti hist = .ok r →
      r.months ≤ months + fuel + 1 ∧
      (r.paid_off = false → r.months = months + fuel + 1 ∧
        r.reason = some "Hit max_months (payments may be too low).") := by
  intro fuel
  induction fuel with
  | zero =>
    intro cards months ti hist r h
    simp only [simLoopMP] at h
    split at h
    · cases h
      exact ⟨by dsimp only; omega, fun _ => ⟨by dsimp only, rfl⟩⟩
    · cases h
      exact ⟨by dsimp only; omega, fun hf => Bool.noConfusion hf⟩
  | succ fuel' ih =>
    intro cards months ti hist r h
    simp only [simLoopMP] at h
    split at h
    · rcases happ : applyManualPays ε mp (accrueAll ε cards).1 with e | cards2
      · rw [happ] at h
        exact absurd h (by simp)
      · rw [happ] at h
        obtain ⟨h1, h2⟩ := ih cards2 (months + 1) _ _ r h
        refine ⟨by omega, fun hf => ⟨?_, (h2 hf).2⟩⟩
        have := (h2 hf).1
        omega
    · cases h
      exact ⟨by dsimp only; omega, fun hf => Bool.noConfusion hf⟩

/-- C3: both simulators are total functions of their inputs (the loop
is structural recursion on `max_months - months`, so it runs at most
`max_months + 1` times), any returned result has `months` at most
`max_months + 1`, and a result that is not paid off can only come from
the cap branch: it carries `months = max_months + 1` and the diagnostic
reason, and that branch returns before any accrual or allocation for
the final iteration. -/
theorem C3_month_cap_termination :
    (∀ (cards : List Card) (b : ℚ) (s : String) (mm : Nat) (ε : ℚ)
      (r : SimResult),
      (simulate_payoff_total_budget cards b s mm ε).1 = .ok r →
      r.months ≤ mm + 1 ∧
      (r.paid_off = false → r.months = mm + 1 ∧
        r.reason = some "Hit max_months (budget may be too low).")) ∧
    (∀ (cards : List Card) (mp : List (String × ℚ)) (mm : Nat) (ε : ℚ)
      (r : SimResult),
      (simulate_payoff_manual_payments cards mp mm ε).1 = .ok r →
      r.months ≤ mm + 1 ∧
      (r.paid_off = false → r.months = mm + 1 ∧
        r.reason = some "Hit max_months (payments may be too low).")) := by
  constructor
  · intro cards b s mm ε r h
    unfold simulate_payoff_total_budget at h
    split at h
    · exact absurd h (by simp)
    · obtain ⟨h1, h2⟩ := simLoopDC_months b s ε mm (pyDeepcopy cards) 0 0 [] r h
      exact ⟨by omega, fun hf => ⟨by have := (h2 hf).1; omega, (h2 hf).2⟩⟩
  · intro cards mp mm ε r h
    unfold simulate_payoff_manual_payments at h
    split at h
    · exact absurd h (by simp)
    · obtain ⟨h1, h2⟩ := simLoopMP_months mp ε mm (pyDeepcopy cards) 0 0 [] r h
      exact ⟨by omega, fun hf => ⟨by have := (h2 hf).1; omega, (h2 hf).2⟩⟩

/-- witness for C3: one card of 100 at 0% APR, a budget (respectively a
manual payment) of 1 and a month cap of 1; both simulators cap out and
return months = 2 = cap + 1 with the diagnostic reason, which the
theorem then bounds. -/
theorem C3_month_cap_termination_witness :
    ((2 : Nat) ≤ 1 + 1 ∧ ((2 : Nat) = 1 + 1 ∧
      (some "Hit max_months (budget may be too low)." : Option String) =
        some "Hit max_months (budget may be too low).")) ∧
    ((2 : Nat) ≤ 1 + 1 ∧ ((2 : Nat) = 1 + 1 ∧
      (some "Hit max_months (payments may be too low)." : Option String) =
        some "Hit max_months (payments may be too low).")) :=
  ⟨(fun h => ⟨h.1, h.2 rfl⟩)
    (C3_month_cap_termination.1 [⟨"A", 100, 0⟩] 1 "avalanche" 1
      (1 / 1000000)
      ⟨false, 2, 0, some "Hit max_months (budget may be too low).",
        [⟨1, 0, 0, [("A", 99)], 99⟩]⟩ (by decide)),
   (fun h => ⟨h.1, h.2 rfl⟩)
    (C3_month_cap_termination.2 [⟨"A", 100, 0⟩] [("A", 1)] 1
      (1 / 1000000)
      ⟨false, 2, 0, some "Hit max_months (payments may be too low).",
        [⟨1, 0, 0, [("A", 99)], 99⟩]⟩ (by decide))⟩

/-- C4 (amended): a non-positive monthly budget always raises
ValueError before the loop; an unrecognized strategy raises ValueError
(and no result is returned) whenever the loop is entered at all, i.e.
when the total balance exceeds epsilon and the month cap is at least 1
— but not unconditionally, see the counterexample. -/
theorem C4_invalid_argument_raises_amended :
    (∀ (cards : List Card) (b : ℚ) (s : String) (mm : Nat) (ε : ℚ),
      b ≤ 0 →
      (simulate_payoff_total_budget cards b s mm ε).1 =
        .error (.valueError "monthly_budget must be > 0")) ∧
    (∀ (cards : List Card) (b : ℚ) (s : String) (mm : Nat) (ε : ℚ),
      0 < b → s ≠ "avalanche" → s ≠ "snowball" → s ≠ "proportional" →
      ε < total_balance cards → 1 ≤ mm →
      (simulate_payoff_total_budget cards b s mm ε).1 =
        .error (.valueError
          "strategy must be one of: avalanche, snowball, proportional")) := by
  constructor
  · intro cards b s mm ε hb
    unfold simulate_payoff_total_budget
    rw [if_pos hb]
  · intro cards b s mm ε hb h1 h2 h3 htot hmm
    obtain ⟨k, rfl⟩ : ∃ k, mm = k + 1 := ⟨mm - 1, by omega⟩
    have halloc : monthAllocDC ε b s (accrueAll ε cards).1 =
        .error (.valueError
          "strategy must be one of: avalanche, snowball, proportional") := by
      unfold monthAllocDC
      rw [if_neg h1, if_neg h2, if_neg h3]
    unfold simulate_payoff_total_budget
    rw [if_neg (not_le.mpr hb)]
    show simLoopDC b s ε (k + 1) cards 0 0 [] = _
    rw [simLoopDC, if_pos htot]
    dsimp only
    rw [halloc]

/-- witness for C4 (amended) at concrete inputs: a negative budget, and
the strategy "bogus" on a card list whose balance exceeds epsilon. -/
theorem C4_invalid_argument_raises_amended_witness :
    (simulate_payoff_total_budget [⟨"A", 100, 0⟩] (-5) "avalanche" 2000
      (1 / 1000000)).1 =
      .error (.valueError "monthly_budget must be > 0") ∧
    (simulate_payoff_total_budget [⟨"A", 100, 0⟩] 50 "bogus" 2000
      (1 / 1000000)).1 =
      .error (.valueError
        "strategy must be one of: avalanche, snowball, proportional") :=
  ⟨C4_invalid_argument_raises_amended.1 _ _ _ _ _ (by norm_num),
   C4_invalid_argument_raises_amended.2 _ _ _ _ _ (by norm_num)
     (by decide) (by decide) (by decide) (by decide) (by norm_num)⟩

lemma orderedInsertB_perm (le : α → α → Bool) (a : α) :
    ∀ l : List α, List.Perm (orderedInsertB le a l) (a :: l) := by
  intro l
  induction l with
  | nil => exact List.Perm.refl _
  | cons b bs ih =>
    simp only [orderedInsertB]
    split
    · exact List.Perm.refl _
    · exact (ih.cons b).trans (List.Perm.swap a b bs)

lemma stableSort_perm (le : α → α → Bool) :
    ∀ l : List α, List.Perm (stableSort le l) l := by
  intro l
  induction l with
  | nil => exact List.Perm.refl _
  | cons a as ih =>
    exact (orderedInsertB_perm le a (stableSort le as)).trans (ih.cons a)

lemma withIdx_getElem? :
    ∀ (n : Nat) (l : List α) (j : Nat) (c : α),
      (j, c) ∈ withIdx n l → n ≤ j ∧ l[j - n]? = some c := by
  intro n l
  induction l generalizing n with
  | nil => intro j c h; simp [withIdx] at h
  | cons a as ih =>
    intro j c h
    rcases List.mem_cons.mp h with h1 | h1
    · injection h1 with h2 h3
      subst h2
      subst h3
      refine ⟨le_refl _, ?_⟩
      simp
    · obtain ⟨h2, h3⟩ := ih (n + 1) j c h1
      refine ⟨by omega, ?_⟩
      have h4 : j - n = (j - (n + 1)) + 1 := by omega
      rw [h4]
      simpa using h3

lemma getElem?_mem_withIdx :
    ∀ (n : Nat) (l : List α) (k : Nat) (h : k < l.length),
      (n + k, l.get ⟨k, h⟩) ∈ withIdx n l := by
  intro n l
  induction l generalizing n with
  | nil => intro k h; exact absurd h (by simp)
  | cons a as ih =>
    intro k h
    cases k with
    | zero => simp [withIdx]
    | succ k' =>
      have h5 := ih (n + 1) k' (by simpa using h)
      have heq : n + (k' + 1) = (n + 1) + k' := by omega
      rw [heq]
      exact List.mem_cons_of_mem _ h5

lemma withIdx_fst_ge :
    ∀ (n : Nat) (l : List α) (p : Nat × α), p ∈ withIdx n l → n ≤ p.1 :=
  fun n l p h => (withIdx_getElem? n l p.1 p.2 h).1

lemma withIdx_fst_nodup :
    ∀ (n : Nat) (l : List α), ((withIdx n l).map Prod.fst).Nodup := by
  intro n l
  induction l generalizing n with
  | nil => simp [withIdx]
  | cons a as ih =>
    simp only [withIdx, List.map_cons]
    refine List.nodup_cons.mpr ⟨?_, ih (n + 1)⟩
    intro hmem
    obtain ⟨p, hp, hfst⟩ := List.mem_map.mp hmem
    have := withIdx_fst_ge (n + 1) as p hp
    omega

lemma greedyPass_map_fst (ε : ℚ) :
    ∀ (rem : ℚ) (pairs : List (Nat × Card)),
      (greedyPass ε rem pairs).2.map Prod.fst = pairs.map Prod.fst := by
  intro rem pairs
  induction pairs generalizing rem with
  | nil => rfl
  | cons p rest ih =>
    obtain ⟨i, c⟩ := p
    simp only [greedyPass]
    split
    · rfl
    · simp only [List.map_cons]
      rw [ih]

lemma greedyPass_fst_of_le (ε rem : ℚ) (pairs : List (Nat × Card))
    (h : rem ≤ ε) : (greedyPass ε rem pairs).1 = rem := by
  cases pairs with
  | nil => rfl
  | cons p rest =>
    obtain ⟨i, c⟩ := p
    simp [greedyPass, if_pos h]

lemma greedyPass_all_zero (ε : ℚ) (hε : 0 ≤ ε) :
    ∀ (pairs : List (Nat × Card)) (rem : ℚ),
      (∀ p ∈ pairs, ε < p.2.balance) →
      ε < (greedyPass ε rem pairs).1 →
      ∀ q ∈ (greedyPass ε rem pairs).2, q.2.balance = 0 := by
  intro pairs
  induction pairs with
  | nil => intro rem _ _ q hq; simp [greedyPass] at hq
  | cons p rest ih =>
    obtain ⟨i, c⟩ := p
    intro rem hact hrem q hq
    by_cases hbr : rem ≤ ε
    · rw [greedyPass, if_pos hbr] at hrem
      exact absurd hrem (not_lt.mpr hbr)
    · simp only [greedyPass, if_neg hbr] at hrem hq
      by_cases hcb : c.balance ≤ rem
      · have hpay : min c.balance rem = c.balance := min_eq_left hcb
        rcases List.mem_cons.mp hq with h1 | h1
        · subst h1
          show c.balance - min c.balance rem = 0
          rw [hpay, sub_self]
        · exact ih (rem - min c.balance rem)
            (fun p hp => hact p (List.mem_cons_of_mem _ hp)) hrem q h1
      · have hpay : min c.balance rem = rem := min_eq_right (not_le.mp hcb).le
        rw [hpay, sub_self, greedyPass_fst_of_le ε 0 rest hε] at hrem
        exact absurd hrem (not_lt.mpr hε)

lemma writeBack_getElem?_not_mem :
    ∀ (pairs : List (Nat × Card)) (cards : List Card) (j : Nat),
      j ∉ pairs.map Prod.fst →
      (writeBack cards pairs)[j]? = cards[j]? := by
  intro pairs
  induction pairs with
  | nil => intro cards j _; rfl
  | cons p rest ih =>
    intro cards j hj
    simp only [List.map_cons, List.mem_cons, not_or] at hj
    show (writeBack (cards.set p.1 p.2) rest)[j]? = cards[j]?
    rw [ih _ j hj.2, List.getElem?_set_ne (Ne.symm hj.1)]

lemma writeBack_getElem?_mem :
    ∀ (pairs : List (Nat × Card)) (cards : List Card) (j : Nat) (c : Card),
      (pairs.map Prod.fst).Nodup → (j, c) ∈ pairs → j < cards.length →
      (writeBack cards pairs)[j]? = some c := by
  intro pairs
  induction pairs with
  | nil => intro _ _ _ _ hm _; simp at hm
  | cons p rest ih =>
    intro cards j c hnd hmem hlen
    simp only [List.map_cons, List.nodup_cons] at hnd
    rcases List.mem_cons.mp hmem with h1 | h1
    · subst h1
      show (writeBack (cards.set j c) rest)[j]? = some c
      rw [writeBack_getElem?_not_mem rest _ j hnd.1]
      exact List.getElem?_set_self hlen
    · show (writeBack (cards.set p.1 p.2) rest)[j]? = some c
      exact ih (cards.set p.1 p.2) j c hnd.2 h1 (by simpa using hlen)

lemma activePairs_mem_balance (ε : ℚ) (cards : List Card) :
    ∀ p ∈ activePairs ε cards, ε < p.2.balance := by
  intro p hp
  exact of_decide_eq_true (List.mem_filter.mp hp).2

lemma activePairs_getElem? (ε : ℚ) (cards : List Card) :
    ∀ p ∈ activePairs ε cards, cards[p.1]? = some p.2 := by
  intro p hp
  have h1 := (List.mem_filter.mp hp).1
  have h2 := withIdx_getElem? 0 cards p.1 p.2 h1
  simpa using h2.2

lemma activePairs_complete (ε : ℚ) (cards : List Card) (j : Nat)
    (hj : j < cards.length) (hbal : ε < (cards.get ⟨j, hj⟩).balance) :
    (j, cards.get ⟨j, hj⟩) ∈ activePairs ε cards := by
  refine List.mem_filter.mpr ⟨?_, decide_eq_true hbal⟩
  have := getElem?_mem_withIdx 0 cards j hj
  simpa using this

lemma writeBack_inactive (ε : ℚ) (hε : 0 ≤ ε) (cards : List Card)
    (act : List (Nat × Card)) (rem : ℚ)
    (hperm : List.Perm act (activePairs ε cards))
    (hrem : ε < (greedyPass ε rem act).1) :
    activePairs ε (writeBack cards (greedyPass ε rem act).2) = [] := by
  have hact : ∀ p ∈ act, ε < p.2.balance :=
    fun p hp => activePairs_mem_balance ε cards p (hperm.mem_iff.mp hp)
  have hzero := greedyPass_all_zero ε hε act rem hact hrem
  have hfst := greedyPass_map_fst ε rem act
  have hndact : (act.map Prod.fst).Nodup := by
    have hnd0 := withIdx_fst_nodup 0 cards
    have hsub : List.Sublist (activePairs ε cards) (withIdx 0 cards) :=
      List.filter_sublist _
    exact ((hperm.map Prod.fst).symm).nodup (hnd0.sublist (hsub.map Prod.fst))
  have hnd2 : ((greedyPass ε rem act).2.map Prod.fst).Nodup := by
    rw [hfst]
    exact hndact
  unfold activePairs
  rw [List.filter_eq_nil_iff]
  rintro ⟨j, c⟩ hp hpa
  have hbal : ε < c.balance := of_decide_eq_true hpa
  have hget : (writeBack cards (greedyPass ε rem act).2)[j]? = some c := by
    have h9 := (withIdx_getElem? 0 _ j c hp).2
    simpa using h9
  by_cases hj : j ∈ (greedyPass ε rem act).2.map Prod.fst
  · obtain ⟨q, hqm, hqf⟩ := List.mem_map.mp hj
    have hq0 : q.2.balance = 0 := hzero q hqm
    have hjlt : j < cards.length := by
      have hj2 : j ∈ act.map Prod.fst := by
        rw [← hfst]
        exact hj
      obtain ⟨q', hm2, hf2⟩ := List.mem_map.mp hj2
      have hm3 := hperm.mem_iff.mp hm2
      have hcard := activePairs_getElem? ε cards q' hm3
      rw [hf2] at hcard
      exact (List.getElem?_eq_some_iff.mp hcard).1
    have hq1lt : q.1 < cards.length := by
      rw [hqf]
      exact hjlt
    have hget2 : (writeBack cards (greedyPass ε rem act).2)[q.1]? =
        some q.2 :=
      writeBack_getElem?_mem _ _ _ _ hnd2 hqm hq1lt
    rw [hqf, hget] at hget2
    injection hget2 with hcc
    rw [hcc, hq0] at hbal
    exact absurd hbal (not_lt.mpr hε)
  · have hget3 := writeBack_getElem?_not_mem (greedyPass ε rem act).2 cards j hj
    rw [hget] at hget3
    obtain ⟨hlt, hgeq⟩ := List.getElem?_eq_some_iff.mp hget3.symm
    have hmem : (j, cards.get ⟨j, hlt⟩) ∈ activePairs ε cards := by
      apply activePairs_complete
      show ε < (cards.get ⟨j, hlt⟩).balance
      have hgc : cards.get ⟨j, hlt⟩ = c := hgeq
      rw [hgc]
      exact hbal
    have hjm : j ∈ (activePairs ε cards).map Prod.fst :=
      List.mem_map.mpr ⟨_, hmem, rfl⟩
    have hjm2 : j ∈ (greedyPass ε rem act).2.map Prod.fst := by
      rw [hfst]
      exact ((hperm.map Prod.fst).mem_iff).mpr hjm
    exact hj hjm2

lemma greedyAlloc_all_paid (ε : ℚ) (hε : 0 ≤ ε) (budget : ℚ)
    (le : Card → Card → Bool) (cards : List Card)
    (hrem : ε < (greedyAlloc ε budget le cards).1) :
    activePairs ε (greedyAlloc ε budget le cards).2 = [] :=
  writeBack_inactive ε hε cards
    (stableSort (fun p q => le p.2 q.2) (activePairs ε cards)) budget
    (stableSort_perm _ _) hrem

lemma greedyAlloc_noop (ε rem : ℚ) (le : Card → Card → Bool)
    (cards : List Card) (h : activePairs ε cards = []) :
    greedyAlloc ε rem le cards = (rem, cards) := by
  unfold greedyAlloc
  rw [h]
  rfl

lemma monthAllocDC_rel_ST (ε b : ℚ) (hε : 0 ≤ ε) (s : String)
    (cards : List Card) :
    monthAllocDC ε b s cards = ST.monthAllocST ε b s cards ∨
    (monthAllocDC ε b s cards = .error (.valueError
        "strategy must be one of: avalanche, snowball, proportional") ∧
      ST.monthAllocST ε b s cards =
        .error (.valueError "Unknown strategy")) := by
  by_cases h1 : s = "avalanche"
  · left
    subst h1
    unfold monthAllocDC ST.monthAllocST
    rw [if_pos rfl]
    rw [if_pos rfl]
    dsimp only
    by_cases h2 : ε < (greedyAlloc ε b avalancheLE cards).1
    · rw [if_pos h2,
        greedyAlloc_noop ε _ avalancheLE _ (greedyAlloc_all_paid ε hε b avalancheLE cards h2)]
    · rw [if_neg h2]
  · by_cases h2 : s = "snowball"
    · left
      subst h2
      unfold monthAllocDC ST.monthAllocST
      rw [if_neg (by decide), if_pos rfl]
      rw [if_neg (by decide), if_pos rfl]
      dsimp only
      by_cases h3 : ε < (greedyAlloc ε b snowballLE cards).1
      · rw [if_pos h3,
          greedyAlloc_noop ε _ snowballLE _ (greedyAlloc_all_paid ε hε b snowballLE cards h3)]
      · rw [if_neg h3]
    · by_cases h3 : s = "proportional"
      · left
        subst h3
        have hpa : ¬("proportional" = "avalanche") := by decide
        have hps : ¬("proportional" = "snowball") := by decide
        unfold monthAllocDC ST.monthAllocST
        rw [if_neg hpa, if_neg hps, if_pos rfl]
        rw [if_neg hpa, if_neg hps, if_pos rfl]
      · right
        unfold monthAllocDC ST.monthAllocST
        rw [if_neg h1, if_neg h2, if_neg h3]
        rw [if_neg h1, if_neg h2, if_neg h3]
        exact ⟨rfl, rfl⟩

lemma simLoop_equiv (b : ℚ) (s : String) (ε : ℚ) (hε : 0 ≤ ε) :
    ∀ (fuel : Nat) (cards : List Card) (months : Nat) (ti : ℚ)
      (hist : List Snapshot),
      outcomeDC (simLoopDC b s ε fuel cards months ti hist) =
      outcomeST (ST.simLoopST b s ε fuel cards months ti) := by
  intro fuel
  induction fuel with
  | zero =>
    intro cards months ti hist
    rw [simLoopDC, ST.simLoopST]
    by_cases h : ε < total_balance cards
    · rw [if_pos h, if_pos h]
      rfl
    · rw [if_neg h, if_neg h]
      rfl
  | succ fuel' ih =>
    intro cards months ti hist
    rw [simLoopDC, ST.simLoopST]
    by_cases h : ε < total_balance cards
    · rw [if_pos h, if_pos h]
      dsimp only
      rcases monthAllocDC_rel_ST ε b hε s (accrueAll ε cards).1
        with heq | ⟨hdc, hst⟩
      · rw [heq]
        rcases hv : ST.monthAllocST ε b s (accrueAll ε cards).1 with e | o
        · rfl
        · match o with
          | none => rfl
          | some cards2 =>
            exact ih cards2 (months + 1) (ti + (accrueAll ε cards).2) _
      · rw [hdc, hst]
        rfl
    · rw [if_neg h, if_neg h]
      rfl

/-- C9 (amended): for every card list, budget, strategy and month cap,
and every nonnegative epsilon (the default 1e-6 included), the two
implementations of simulate_payoff_total_budget agree on their shared
outputs: they raise the same kind of error or return the same paid_off,
months and total_interest — in particular the overflow-handling second
allocation pass of debt_calculator.py never changes a balance, because
budget remaining above epsilon after a completed first pass forces
every first-pass-active balance to exactly zero.  For a negative
epsilon this fails, see the counterexample. -/
theorem C9_implementations_equivalent_amended :
    ∀ (cards : List Card) (b : ℚ) (s : String) (mm : Nat) (ε : ℚ),
      0 ≤ ε →
      outcomeDC (simulate_payoff_total_budget cards b s mm ε).1 =
      outcomeST (ST.simulate_payoff_total_budget cards b s mm ε).1 := by
  intro cards b s mm ε hε
  unfold simulate_payoff_total_budget ST.simulate_payoff_total_budget
  by_cases hb : b ≤ 0
  · rw [if_pos hb, if_pos hb]
    rfl
  · rw [if_neg hb, if_neg hb]
    exact simLoop_equiv b s ε hε mm (pyDeepcopy cards) 0 0 []

/-- witness for C9 (amended) at the default epsilon 1e-6 on a concrete
account. -/
theorem C9_implementations_equivalent_amended_witness :
    outcomeDC (simulate_payoff_total_budget [⟨"A", 1200, 24⟩] 200
      "avalanche" 5 (1 / 1000000)).1 =
    outcomeST (ST.simulate_payoff_total_budget [⟨"A", 1200, 24⟩] 200
      "avalanche" 5 (1 / 1000000)).1 :=
  C9_implementations_equivalent_amended _ _ _ _ _ (by norm_num)


lemma avalancheLE_of_apr_lt {a b : Card} (h : b.apr < a.apr) :
    avalancheLE a b = true ∧ avalancheLE b a = false := by
  unfold avalancheLE
  refine ⟨decide_eq_true (Or.inl h), decide_eq_false ?_⟩
  rintro (h1 | ⟨h1, -⟩)
  · exact absurd h1 (not_lt.mpr h.le)
  · exact absurd h1 (ne_of_lt h)

lemma snowballLE_of_balance_lt {a b : Card} (h : a.balance < b.balance) :
    snowballLE a b = true ∧ snowballLE b a = false := by
  unfold snowballLE
  refine ⟨decide_eq_true (Or.inl h), decide_eq_false ?_⟩
  rintro (h1 | ⟨h1, -⟩)
  · exact absurd h1 (not_lt.mpr h.le)
  · exact absurd h1 (ne_of_gt h)

lemma stableSort_pair (le : Card → Card → Bool) (i j : Nat) (a b : Card)
    (h1 : le a b = true) (h2 : le b a = false) :
    stableSort (fun p q => le p.2 q.2) [(i, a), (j, b)] = [(i, a), (j, b)] ∧
    stableSort (fun p q => le p.2 q.2) [(j, b), (i, a)] =
      [(i, a), (j, b)] := by
  constructor
  · simp [stableSort, orderedInsertB, h1]
  · simp [stableSort, orderedInsertB, h2]

lemma greedyPass_pair (ε budget : ℚ) (hbud : ε < budget) (p q : Nat × Card) :
    (greedyPass ε budget [p, q]).2 =
      (p.1, { p.2 with balance := p.2.balance - min p.2.balance budget }) ::
      (if budget - min p.2.balance budget ≤ ε then [q]
       else [(q.1, { q.2 with balance := (q.2.balance -
         min q.2.balance (budget - min p.2.balance budget)) })]) := by
  obtain ⟨i, a⟩ := p
  obtain ⟨j, b⟩ := q
  simp only [greedyPass, if_neg (not_le.mpr hbud)]
  by_cases h2 : budget - min a.balance budget ≤ ε
  · simp only [if_pos h2]
  · simp only [if_neg h2]

lemma activePairs_pair (ε : ℚ) (a b : Card) (ha : ε < a.balance)
    (hb : ε < b.balance) : activePairs ε [a, b] = [(0, a), (1, b)] := by
  unfold activePairs
  simp [withIdx, List.filter, decide_eq_true ha, decide_eq_true hb]

lemma monthAllocDC_avalanche_eq (ε b : ℚ) (hε : 0 ≤ ε)
    (cards : List Card) :
    monthAllocDC ε b "avalanche" cards =
      .ok (some (greedyAlloc ε b avalancheLE cards).2) := by
  have hST : ST.monthAllocST ε b "avalanche" cards =
      .ok (some (greedyAlloc ε b avalancheLE cards).2) := by
    unfold ST.monthAllocST
    rw [if_pos rfl]
  rcases monthAllocDC_rel_ST ε b hε "avalanche" cards with h | ⟨-, h2⟩
  · rw [h, hST]
  · rw [hST] at h2
    exact absurd h2 (by simp)

lemma monthAllocDC_snowball_eq (ε b : ℚ) (hε : 0 ≤ ε)
    (cards : List Card) :
    monthAllocDC ε b "snowball" cards =
      .ok (some (greedyAlloc ε b snowballLE cards).2) := by
  have hST : ST.monthAllocST ε b "snowball" cards =
      .ok (some (greedyAlloc ε b snowballLE cards).2) := by
    unfold ST.monthAllocST
    rw [if_neg (by decide), if_pos rfl]
  rcases monthAllocDC_rel_ST ε b hε "snowball" cards with h | ⟨-, h2⟩
  · rw [h, hST]
  · rw [hST] at h2
    exact absurd h2 (by simp)

/-- C6: strategy ordering, universal and concrete.  Universally, for
every month state over two active cards (any balances, so the claim's
equal-balance setting included) and nonnegative epsilon: under
avalanche the higher-APR card is paid `min(balance, budget)` first and
the other card is paid only from the remainder — nothing once the
remainder is exhausted (at or below epsilon) — whichever position it
occupies in the list; under snowball the lower-balance card is paid
first the same way.  `monthAllocDC` is the allocation the simulator
applies every month, so this holds each month until the budget is
exhausted.  Concretely, for A(1000, 20%) and B(500, 10%) with budget
100, month 1 of avalanche pays A 100 and B 0, and month 1 of snowball
pays B 100 and A 0 (B's post-accrual balance 3025/6 exceeds 100);
those runs use a month cap of 1, which caps out after recording
exactly the month-1 snapshot the scenario is about. -/
theorem C6_strategy_ordering :
    (∀ (ε budget : ℚ) (a b : Card), 0 ≤ ε → ε < budget →
      ε < a.balance → ε < b.balance → b.apr < a.apr →
      monthAllocDC ε budget "avalanche" [a, b] = .ok (some
        [{ a with balance := a.balance - min a.balance budget },
         if budget - min a.balance budget ≤ ε then b
         else { b with balance := (b.balance -
           min b.balance (budget - min a.balance budget)) }]) ∧
      monthAllocDC ε budget "avalanche" [b, a] = .ok (some
        [if budget - min a.balance budget ≤ ε then b
         else { b with balance := (b.balance -
           min b.balance (budget - min a.balance budget)) },
         { a with balance := a.balance - min a.balance budget }])) ∧
    (∀ (ε budget : ℚ) (a b : Card), 0 ≤ ε → ε < budget →
      ε < a.balance → ε < b.balance → a.balance < b.balance →
      monthAllocDC ε budget "snowball" [a, b] = .ok (some
        [{ a with balance := a.balance - min a.balance budget },
         if budget - min a.balance budget ≤ ε then b
         else { b with balance := (b.balance -
           min b.balance (budget - min a.balance budget)) }]) ∧
      monthAllocDC ε budget "snowball" [b, a] = .ok (some
        [if budget - min a.balance budget ≤ ε then b
         else { b with balance := (b.balance -
           min b.balance (budget - min a.balance budget)) },
         { a with balance := a.balance - min a.balance budget }])) ∧
    ((accrueAll (1 / 1000000) [⟨"A", 1000, 20⟩, ⟨"B", 500, 10⟩]).1.map
        Card.balance = [3050 / 3, 3025 / 6] ∧
    (100 : ℚ) < 3025 / 6 ∧
    ((simulate_payoff_total_budget [⟨"A", 1000, 20⟩, ⟨"B", 500, 10⟩] 100
        "avalanche" 1 (1 / 1000000)).1.toOption.map fun r =>
      r.history.head?) =
      some (some ⟨1, 125 / 6, 125 / 6,
        [("A", 2750 / 3), ("B", 3025 / 6)], 8525 / 6⟩) ∧
    ((simulate_payoff_total_budget [⟨"A", 1000, 20⟩, ⟨"B", 500, 10⟩] 100
        "snowball" 1 (1 / 1000000)).1.toOption.map fun r =>
      r.history.head?) =
      some (some ⟨1, 125 / 6, 125 / 6,
        [("A", 3050 / 3), ("B", 2425 / 6)], 8525 / 6⟩) ∧
    (3050 / 3 : ℚ) - 2750 / 3 = 100 ∧
    (2425 / 6 : ℚ) = 3025 / 6 - 100) := by
  refine ⟨?_, ?_, by decide⟩
  · intro ε budget a b hε hbud ha hb hapr
    obtain ⟨hle1, hle2⟩ := avalancheLE_of_apr_lt hapr
    constructor
    · rw [monthAllocDC_avalanche_eq ε budget hε]
      simp only [greedyAlloc]
      rw [activePairs_pair ε a b ha hb,
        (stableSort_pair avalancheLE 0 1 a b hle1 hle2).1,
        greedyPass_pair ε budget hbud (0, a) (1, b)]
      by_cases h2 : budget - min a.balance budget ≤ ε
      · simp only [if_pos h2]
        rfl
      · simp only [if_neg h2]
        rfl
    · rw [monthAllocDC_avalanche_eq ε budget hε]
      simp only [greedyAlloc]
      rw [activePairs_pair ε b a hb ha,
        (stableSort_pair avalancheLE 1 0 a b hle1 hle2).2,
        greedyPass_pair ε budget hbud (1, a) (0, b)]
      by_cases h2 : budget - min a.balance budget ≤ ε
      · simp only [if_pos h2]
        rfl
      · simp only [if_neg h2]
        rfl
  · intro ε budget a b hε hbud ha hb hbal
    obtain ⟨hle1, hle2⟩ := snowballLE_of_balance_lt hbal
    constructor
    · rw [monthAllocDC_snowball_eq ε budget hε]
      simp only [greedyAlloc]
      rw [activePairs_pair ε a b ha hb,
        (stableSort_pair snowballLE 0 1 a b hle1 hle2).1,
        greedyPass_pair ε budget hbud (0, a) (1, b)]
      by_cases h2 : budget - min a.balance budget ≤ ε
      · simp only [if_pos h2]
        rfl
      · simp only [if_neg h2]
        rfl
    · rw [monthAllocDC_snowball_eq ε budget hε]
      simp only [greedyAlloc]
      rw [activePairs_pair ε b a hb ha,
        (stableSort_pair snowballLE 1 0 a b hle1 hle2).2,
        greedyPass_pair ε budget hbud (1, a) (0, b)]
      by_cases h2 : budget - min a.balance budget ≤ ε
      · simp only [if_pos h2]
        rfl
      · simp only [if_neg h2]
        rfl

/-- witness for C6 at concrete inputs: two cards of equal balance 300
with APRs 20 and 10 under avalanche (the higher-APR card takes the
whole budget, the other is paid nothing), and a lower-balance card
listed second under snowball (it is still paid first). -/
theorem C6_strategy_ordering_witness :
    monthAllocDC (1 / 1000000) 100 "avalanche"
        [⟨"A", 300, 20⟩, ⟨"B", 300, 10⟩] =
      .ok (some [⟨"A", 200, 20⟩, ⟨"B", 300, 10⟩]) ∧
    monthAllocDC (1 / 1000000) 100 "snowball"
        [⟨"B", 300, 10⟩, ⟨"A", 100, 5⟩] =
      .ok (some [⟨"B", 300, 10⟩, ⟨"A", 0, 5⟩]) :=
  ⟨((C6_strategy_ordering.1 (1 / 1000000) 100 ⟨"A", 300, 20⟩ ⟨"B", 300, 10⟩
      (by norm_num) (by norm_num) (by norm_num) (by norm_num)
      (by norm_num)).1).trans (by decide),
   ((C6_strategy_ordering.2.1 (1 / 1000000) 100 ⟨"A", 100, 5⟩ ⟨"B", 300, 10⟩
      (by norm_num) (by norm_num) (by norm_num) (by norm_num)
      (by norm_num)).2).trans (by decide)⟩

end DebtPayoff
